import Mathlib

/-!
Shallow embedding of `main.py`: a chunked CSV → SQLite ingest pipeline for
Golden Globe Awards records, with optional winners-only and year filters,
null → 0 normalization before insert, and duplicate suppression through the
destination table's UNIQUE constraint declared ON CONFLICT IGNORE (module
docstring, main.py lines 15-18).
-/

namespace GGA

/-- A cell of the CSV / of a table column: either null (NaN after pandas
parsing), an integer, or a string. -/
inductive Cell
  | null
  | int (n : Int)
  | str (s : String)
deriving DecidableEq, Repr

/-- One record of `golden_globe_awards.csv`. The `year_award` column is
always-present integer data and `win` an always-present boolean (the code
filters on them directly, main.py lines 98 and 100); the remaining columns
may contain nulls and are modelled as `Cell`s. -/
structure Record where
  year_film : Cell
  year_award : Int
  ceremony : Cell
  category : Cell
  nominee : Cell
  film : Cell
  win : Bool
deriving DecidableEq, Repr

/-- Log events emitted by the program, in source order of the logging calls. -/
inductive LogMsg
  | connError    -- main.py line 68
  | dbError      -- main.py line 78
  | chunkDone    -- main.py line 81
  | chunkWritten -- main.py line 112
  | chunkEmpty   -- main.py line 114
  | allCleared   -- main.py line 121
deriving DecidableEq, Repr

/-- Errors of the sqlite3.DatabaseError family that the code distinguishes. -/
inductive DBError
  | uniquenessViolation
  | connectionFailed
  | other
deriving DecidableEq, Repr

/-- `fillna(0)` on one cell: a null becomes the integer 0, anything else is
kept (main.py line 104). -/
def fillCell : Cell → Cell
  | Cell.null => Cell.int 0
  | c => c

/-- `df_chunk.fillna(0, inplace=True)` (main.py line 104): every null cell of
the record becomes 0. The non-null `year_award` and `win` columns are
unaffected. -/
def fillna (r : Record) : Record :=
  ⟨fillCell r.year_film, r.year_award, fillCell r.ceremony, fillCell r.category,
   fillCell r.nominee, fillCell r.film, r.win⟩

/-- The optional (nullable) columns of a record: every column except the
always-present `year_award` and `win`. -/
inductive OptField
  | year_film
  | ceremony
  | category
  | nominee
  | film
deriving DecidableEq, Repr

/-- Read one optional column of a record. -/
def getField : OptField → Record → Cell
  | OptField.year_film, r => r.year_film
  | OptField.ceremony, r => r.ceremony
  | OptField.category, r => r.category
  | OptField.nominee, r => r.nominee
  | OptField.film, r => r.film

/-- Replace one optional column of a record. -/
def setField : OptField → Record → Cell → Record
  | OptField.year_film, r, c => { r with year_film := c }
  | OptField.ceremony, r, c => { r with ceremony := c }
  | OptField.category, r, c => { r with category := c }
  | OptField.nominee, r, c => { r with nominee := c }
  | OptField.film, r, c => { r with film := c }

/-- Python truthiness of the `year_award` argument: None and 0 are falsy,
every other integer is truthy. -/
def yearTruthy : Option Int → Bool
  | none => false
  | some y => y != 0

/-- The filtering prefix of `DB.write_data` (main.py lines 97-100):
`if winners_only: df_chunk = df_chunk[df_chunk["win"]]` then
`if year_award: df_chunk = df_chunk[df_chunk["year_award"] == year_award]`.
Python truthiness: the year filter is applied only when `year_award` is
neither None nor 0. -/
def filterChunk (df_chunk : List Record) (year_award : Option Int)
    (winners_only : Bool) : List Record :=
  let c1 := if winners_only then df_chunk.filter (fun r => r.win) else df_chunk
  if yearTruthy year_award then
    c1.filter (fun r => r.year_award == year_award.getD 0)
  else c1

/-- One row of the bulk insert under the table's UNIQUE constraint with
ON CONFLICT IGNORE (main.py lines 15-18): a row already present is ignored,
the existing row untouched; otherwise the row is appended. -/
def insertRow (t : List Record) (r : Record) : List Record :=
  if r ∈ t then t else t ++ [r]

/-- `df_chunk.to_sql(..., if_exists="append")` (main.py lines 106-111): the
rows are inserted one after the other, each under ON CONFLICT IGNORE. -/
def insertRows (t : List Record) (rs : List Record) : List Record :=
  rs.foldl insertRow t

/-- The ON CONFLICT IGNORE bulk insert as a fallible operation: it never
raises. -/
def insertIgnore (t : List Record) (rs : List Record) :
    Except DBError (List Record) :=
  Except.ok (insertRows t rs)

/-- Outcome of one `write_data` call: the table contents after the call
(`with self.conn` commits on success and rolls the transaction back on an
exception, main.py line 96), the exception propagated to the caller if any,
and the log lines emitted. -/
structure WriteResult where
  table : List Record
  raised : Option DBError
  log : List LogMsg
deriving DecidableEq, Repr

/-- Body of `DB.write_data` (main.py lines 95-114), parameterized by the bulk
insert so that the sqlite error path can be examined: filter, then if the
surviving chunk is nonempty, fillna and bulk-insert it inside the
connection's transaction scope (rollback on an exception, so on an error the
table is unchanged); if empty, log-only no-op. -/
def write_data_body (insert : List Record → List Record → Except DBError (List Record))
    (table : List Record) (df_chunk : List Record) (year_award : Option Int)
    (winners_only : Bool) : WriteResult :=
  let c := filterChunk df_chunk year_award winners_only
  if c.isEmpty then ⟨table, none, [LogMsg.chunkEmpty]⟩
  else
    match insert table (c.map fillna) with
    | Except.ok t => ⟨t, none, [LogMsg.chunkWritten]⟩
    | Except.error e => ⟨table, some e, []⟩

/-- The `db_validator` decorator (main.py lines 73-82): on a
sqlite3.DatabaseError it logs the error and re-raises it (`raise`, line 79);
otherwise it logs completion of the fragment. -/
def db_validator (w : WriteResult) : WriteResult :=
  match w.raised with
  | some _ => ⟨w.table, w.raised, w.log ++ [LogMsg.dbError]⟩
  | none => ⟨w.table, w.raised, w.log ++ [LogMsg.chunkDone]⟩

/-- `DB.write_data` as called: the body wrapped by `db_validator`. -/
def write_data (insert : List Record → List Record → Except DBError (List Record))
    (table : List Record) (df_chunk : List Record) (year_award : Option Int)
    (winners_only : Bool) : WriteResult :=
  db_validator (write_data_body insert table df_chunk year_award winners_only)

/-- The `for ch in reader.get_data_chunk(...)` loop of `__main__` (main.py
lines 152-153): each chunk goes through `write_data`; an exception raised by
`db_validator` propagates out of the loop (there is no handler in
`__main__`), so the remaining chunks are never processed. -/
def runBatches (insert : List Record → List Record → Except DBError (List Record))
    (year_award : Option Int) (winners_only : Bool) :
    List (List Record) → List Record → WriteResult
  | [], table => ⟨table, none, []⟩
  | c :: cs, table =>
    let w := write_data insert table c year_award winners_only
    match w.raised with
    | some e => ⟨w.table, some e, w.log⟩
    | none =>
      let rest := runBatches insert year_award winners_only cs w.table
      ⟨rest.table, rest.raised, w.log ++ rest.log⟩

/-- The ingest loop with the actual (never-failing, ON CONFLICT IGNORE)
insert: only the final table contents. -/
def ingest (table : List Record) (chunks : List (List Record))
    (year_award : Option Int) (winners_only : Bool) : List Record :=
  match chunks with
  | [] => table
  | c :: cs =>
    ingest (write_data insertIgnore table c year_award winners_only).table
      cs year_award winners_only

/-- Fuel-driven worker for `Reader.get_data_chunk`; the fuel is instantiated
with the row count, which bounds the number of chunks. -/
def chunksAux (size : Nat) : Nat → List α → List (List α)
  | 0, _ => []
  | _ + 1, [] => []
  | fuel + 1, r :: rows =>
    (r :: rows).take size :: chunksAux size fuel ((r :: rows).drop size)

/-- `Reader.get_data_chunk` (main.py lines 132-139): `pd.read_csv(filepath,
chunksize=size)` yields the file's rows in consecutive chunks of `size` rows,
the last chunk possibly smaller. (pandas rejects `chunksize=0`; that case is
outside every claim and returns no chunks here.) -/
def get_data_chunk (size : Nat) (rows : List α) : List (List α) :=
  chunksAux size rows.length rows

/-- Decimal value of a digit string, for the model of Python's `int`. -/
def pyDigits (cs : List Char) : Nat :=
  cs.foldl (fun n c => n * 10 + (c.toNat - 48)) 0

/-- Model of the Python builtin `int` on the decimal strings argparse can
pass for "--year": an optional minus sign followed by decimal digits.
(`int` raises ValueError on other strings; that path is irrelevant here.) -/
def pyInt (s : String) : Int :=
  match s.data with
  | '-' :: cs => -(pyDigits cs : Int)
  | cs => (pyDigits cs : Int)

/-- `year = int(args.year) if args.year else None` (main.py line 47).
`args.year` is the raw argparse string (default None); a NON-EMPTY string is
truthy in Python, so "--year 0" produces the integer 0, not None. -/
def cliYear (argsYear : Option String) : Option Int :=
  match argsYear with
  | none => none
  | some s => if s = "" then none else some (pyInt s)

/-- The destination sqlite database: whether the `gg_awards` table (with its
UNIQUE constraint) exists, and its rows. -/
structure Store where
  tableExists : Bool
  rows : List Record
deriving DecidableEq, Repr

/-- `DB.clear_all` (main.py lines 116-121): executes
"DELETE from gg_awards" - a DELETE, not a DROP - so every row is removed
while the table and its schema (UNIQUE constraint included) survive. -/
def clear_all (s : Store) : Store × List LogMsg :=
  (⟨s.tableExists, []⟩, [LogMsg.allCleared])

/-- `__main__` (main.py lines 142-153): build the `DB` (which opens the
connection via the `DBConnection` descriptor, main.py lines 61-70 - on a
connection error it logs and re-raises, so the program dies before anything
touches the table), then optionally clear, then read chunks of 1000 rows and
write each one. -/
def main_run (connect : Except DBError Unit) (clearFlag : Bool)
    (fileRows : List Record) (year : Option Int) (winner : Bool)
    (store : Store) : Store × Option DBError × List LogMsg :=
  match connect with
  | Except.error e => (store, some e, [LogMsg.connError])
  | Except.ok _ =>
    let s1 := if clearFlag then (clear_all store).1 else store
    let log1 := if clearFlag then (clear_all store).2 else []
    let r := runBatches insertIgnore year winner
      (get_data_chunk 1000 fileRows) s1.rows
    (⟨s1.tableExists, r.table⟩, r.raised, log1 ++ r.log)

/-- A bulk insert that raises IntegrityError (a uniqueness violation, a
sqlite3.DatabaseError) - the behavior of `to_sql` into a table whose UNIQUE
constraint lacks ON CONFLICT IGNORE when the chunk holds an
already-present row. Used to examine the code's error path. -/
def uniqFailInsert (_ : List Record) (_ : List Record) :
    Except DBError (List Record) :=
  Except.error DBError.uniquenessViolation

/-- A concrete record for witnesses and counterexamples. -/
def rec0 : Record :=
  ⟨Cell.int 1995, 1995, Cell.int 53, Cell.str "Best Motion Picture - Drama",
   Cell.str "Forrest Gump", Cell.str "Forrest Gump", true⟩

/-- A second concrete record: a loser from another year with a null film. -/
def rec1 : Record :=
  ⟨Cell.int 1996, 1996, Cell.int 54, Cell.str "Best Director",
   Cell.str "Mel Gibson", Cell.null, false⟩

/-! ### Helper lemmas on the insert-with-ignore semantics -/

theorem insertRow_subset (t : List Record) (r : Record) : t ⊆ insertRow t r := by
  unfold insertRow; split
  · exact fun x hx => hx
  · exact List.subset_append_left t [r]

theorem mem_insertRow_self (t : List Record) (r : Record) : r ∈ insertRow t r := by
  unfold insertRow; split
  · assumption
  · simp

theorem mem_of_insertRow {x r : Record} {t : List Record}
    (h : x ∈ insertRow t r) : x ∈ t ∨ x = r := by
  unfold insertRow at h; split at h
  · exact Or.inl h
  · rcases List.mem_append.mp h with h1 | h1
    · exact Or.inl h1
    · exact Or.inr (List.mem_singleton.mp h1)

theorem insertRows_nil (t : List Record) : insertRows t [] = t := rfl

theorem insertRows_cons (t : List Record) (a : Record) (l : List Record) :
    insertRows t (a :: l) = insertRows (insertRow t a) l := rfl

theorem insertRows_append (t : List Record) (xs ys : List Record) :
    insertRows t (xs ++ ys) = insertRows (insertRows t xs) ys := by
  unfold insertRows; rw [List.foldl_append]

theorem insertRows_subset (t rs : List Record) : t ⊆ insertRows t rs := by
  induction rs generalizing t with
  | nil => exact fun x hx => hx
  | cons a l ih =>
    exact fun x hx => ih (insertRow t a) (insertRow_subset t a hx)

theorem mem_of_insertRows {x : Record} {t rs : List Record}
    (h : x ∈ insertRows t rs) : x ∈ t ∨ x ∈ rs := by
  induction rs generalizing t with
  | nil => exact Or.inl h
  | cons a l ih =>
    rw [insertRows_cons] at h
    rcases ih h with h1 | h1
    · rcases mem_of_insertRow h1 with h2 | h2
      · exact Or.inl h2
      · exact Or.inr (h2 ▸ List.mem_cons_self a l)
    · exact Or.inr (List.mem_cons_of_mem a h1)

theorem mem_insertRows_of_mem {x : Record} {t rs : List Record} (h : x ∈ rs) :
    x ∈ insertRows t rs := by
  induction rs generalizing t with
  | nil => cases h
  | cons a l ih =>
    rw [insertRows_cons]
    rcases List.mem_cons.mp h with h1 | h1
    · exact insertRows_subset (insertRow t a) l (h1 ▸ mem_insertRow_self t a)
    · exact ih h1

theorem insertRows_of_subset {t rs : List Record} (h : ∀ x ∈ rs, x ∈ t) :
    insertRows t rs = t := by
  induction rs with
  | nil => rfl
  | cons a l ih =>
    have ha : insertRow t a = t := if_pos (h a (List.mem_cons_self a l))
    rw [insertRows_cons, ha]
    exact ih fun x hx => h x (List.mem_cons_of_mem a hx)

theorem count_insertRow {x : Record} {t : List Record} (hx : x ∈ t) (a : Record) :
    (insertRow t a).count x = t.count x := by
  unfold insertRow; split
  · rfl
  · next ha =>
    have hax : a ≠ x := fun h => ha (h ▸ hx)
    simp [List.count_append, List.count_cons, List.count_nil, hax]

theorem count_insertRows {x : Record} {t : List Record} (hx : x ∈ t)
    (rs : List Record) : (insertRows t rs).count x = t.count x := by
  induction rs generalizing t with
  | nil => rfl
  | cons a l ih =>
    rw [insertRows_cons, ih (insertRow_subset t a hx), count_insertRow hx a]

theorem insertRow_nodup {t : List Record} (h : t.Nodup) (r : Record) :
    (insertRow t r).Nodup := by
  unfold insertRow; split
  · exact h
  · next hr => simp [List.nodup_append, h, hr]

theorem insertRows_nodup {t : List Record} (h : t.Nodup) (rs : List Record) :
    (insertRows t rs).Nodup := by
  induction rs generalizing t with
  | nil => exact h
  | cons a l ih => exact ih (insertRow_nodup h a)

/-! ### Helper lemmas on the filters -/

theorem filterChunk_nil (y : Option Int) (w : Bool) : filterChunk [] y w = [] := by
  cases w <;> by_cases ht : yearTruthy y = true <;> simp [filterChunk, ht]

theorem filterChunk_append (a b : List Record) (y : Option Int) (w : Bool) :
    filterChunk (a ++ b) y w = filterChunk a y w ++ filterChunk b y w := by
  cases w <;> by_cases ht : yearTruthy y = true <;> simp [filterChunk, ht]

theorem filterChunk_some_ne_zero (c : List Record) {y : Int} (hy : y ≠ 0) (w : Bool) :
    filterChunk c (some y) w =
      (if w then c.filter fun r => r.win else c).filter
        (fun r => r.year_award == y) := by
  unfold filterChunk
  have ht : yearTruthy (some y) = true := by simp [yearTruthy, hy]
  rw [ht]
  simp

theorem mem_filterChunk_winner_year {r : Record} {c : List Record} {y : Int}
    (hy : y ≠ 0) (h : r ∈ filterChunk c (some y) true) :
    r.win = true ∧ r.year_award = y := by
  rw [filterChunk_some_ne_zero c hy true] at h
  have h2 := List.mem_filter.mp h
  have h3 := List.mem_filter.mp (by simpa using h2.1)
  exact ⟨h3.2, by simpa using h2.2⟩

theorem fillna_win (r : Record) : (fillna r).win = r.win := rfl

theorem fillna_year_award (r : Record) : (fillna r).year_award = r.year_award := rfl

theorem filterChunk_no_filters (c : List Record) : filterChunk c none false = c := by
  simp [filterChunk, yearTruthy]

theorem filterChunk_zero (c : List Record) (w : Bool) :
    filterChunk c (some 0) w = filterChunk c none w := by
  simp [filterChunk, yearTruthy]

/-! ### Helper lemmas on the writer and the ingest loop -/

theorem write_data_insertIgnore_eq (t c : List Record) (y : Option Int) (w : Bool) :
    write_data insertIgnore t c y w =
      ⟨insertRows t ((filterChunk c y w).map fillna), none,
        if (filterChunk c y w).isEmpty then [LogMsg.chunkEmpty, LogMsg.chunkDone]
        else [LogMsg.chunkWritten, LogMsg.chunkDone]⟩ := by
  unfold write_data write_data_body db_validator insertIgnore
  by_cases h : (filterChunk c y w).isEmpty
  · have h0 : filterChunk c y w = [] := by
      cases hc : filterChunk c y w with
      | nil => rfl
      | cons a l => rw [hc] at h; simp [List.isEmpty] at h
    simp [h, h0, insertRows_nil]
  · simp [h]

theorem ingest_nil (t : List Record) (y : Option Int) (w : Bool) :
    ingest t [] y w = t := rfl

theorem ingest_cons (t c : List Record) (cs : List (List Record))
    (y : Option Int) (w : Bool) :
    ingest t (c :: cs) y w =
      ingest (insertRows t ((filterChunk c y w).map fillna)) cs y w := by
  show ingest (write_data insertIgnore t c y w).table cs y w = _
  rw [write_data_insertIgnore_eq]

theorem ingest_eq (cs : List (List Record)) (t : List Record)
    (y : Option Int) (w : Bool) :
    ingest t cs y w = insertRows t ((filterChunk cs.flatten y w).map fillna) := by
  induction cs generalizing t with
  | nil => simp [ingest_nil, filterChunk_nil, insertRows_nil]
  | cons c cs ih =>
    rw [ingest_cons, ih, List.flatten_cons, filterChunk_append, List.map_append,
      insertRows_append]

theorem ingest_twice (t : List Record) (cs : List (List Record))
    (y : Option Int) (w : Bool) :
    ingest (ingest t cs y w) cs y w = ingest t cs y w := by
  rw [ingest_eq cs t, ingest_eq]
  exact insertRows_of_subset fun x hx => mem_insertRows_of_mem hx

theorem write_data_zero (insert : List Record → List Record → Except DBError (List Record))
    (t c : List Record) (w : Bool) :
    write_data insert t c (some 0) w = write_data insert t c none w := by
  unfold write_data write_data_body
  rw [filterChunk_zero]

theorem runBatches_zero (cs : List (List Record)) (t : List Record) (w : Bool) :
    runBatches insertIgnore (some 0) w cs t = runBatches insertIgnore none w cs t := by
  induction cs generalizing t with
  | nil => rfl
  | cons c cs ih =>
    simp only [runBatches, write_data_zero, ih]

/-! ### Helper lemmas on the chunked reader -/

theorem chunksAux_nil_rows (size fuel : Nat) : chunksAux size fuel ([] : List α) = [] := by
  cases fuel <;> rfl

theorem chunksAux_flatten {size : Nat} (hs : 0 < size) (fuel : Nat) :
    ∀ rows : List α, rows.length ≤ fuel → (chunksAux size fuel rows).flatten = rows := by
  induction fuel with
  | zero =>
    intro rows h
    have h0 : rows = [] := List.length_eq_zero.mp (Nat.le_zero.mp h)
    rw [h0]; rfl
  | succ fuel ih =>
    intro rows h
    cases rows with
    | nil => rfl
    | cons r rs =>
      simp only [chunksAux, List.flatten_cons]
      rw [ih ((r :: rs).drop size)
        (by simp [List.length_drop, List.length_cons] at h ⊢; omega)]
      exact List.take_append_drop size (r :: rs)

theorem chunksAux_mem {size : Nat} (hs : 0 < size) (fuel : Nat) :
    ∀ rows : List α, rows.length ≤ fuel →
      ∀ c ∈ chunksAux size fuel rows, c ≠ [] ∧ c.length ≤ size := by
  induction fuel with
  | zero =>
    intro rows h c hc
    have h0 : rows = [] := List.length_eq_zero.mp (Nat.le_zero.mp h)
    rw [h0] at hc; cases hc
  | succ fuel ih =>
    intro rows h c hc
    cases rows with
    | nil => cases hc
    | cons r rs =>
      simp only [chunksAux] at hc
      rcases List.mem_cons.mp hc with h1 | h1
      · subst h1
        constructor
        · have : ((r :: rs).take size).length = min size (rs.length + 1) := by
            simp [List.length_take]
          intro hnil
          rw [hnil] at this
          simp at this
          omega
        · simp [List.length_take]
      · exact ih ((r :: rs).drop size)
            (by simp [List.length_drop, List.length_cons] at h ⊢; omega) c h1

theorem chunksAux_dropLast {size : Nat} (hs : 0 < size) (fuel : Nat) :
    ∀ rows : List α, rows.length ≤ fuel →
      ∀ c ∈ (chunksAux size fuel rows).dropLast, c.length = size := by
  induction fuel with
  | zero =>
    intro rows h c hc
    have h0 : rows = [] := List.length_eq_zero.mp (Nat.le_zero.mp h)
    rw [h0] at hc; cases hc
  | succ fuel ih =>
    intro rows h c hc
    cases rows with
    | nil => cases hc
    | cons r rs =>
      simp only [chunksAux] at hc
      by_cases hrest : chunksAux size fuel ((r :: rs).drop size) = []
      · rw [hrest] at hc; cases hc
      · rw [List.dropLast_cons_of_ne_nil hrest] at hc
        rcases List.mem_cons.mp hc with h1 | h1
        · subst h1
          have hd : (r :: rs).drop size ≠ [] := by
            intro hnil
            rw [hnil, chunksAux_nil_rows] at hrest
            exact hrest rfl
          have hlt : size < (r :: rs).length := by
            by_contra hle
            push_neg at hle
            exact hd (List.drop_of_length_le hle)
          simp only [List.length_cons] at hlt
          simp [List.length_take]
          omega
        · exact ih ((r :: rs).drop size)
            (by simp [List.length_drop, List.length_cons] at h ⊢; omega) c h1

theorem get_data_chunk_flatten {size : Nat} (hs : 0 < size) (rows : List α) :
    (get_data_chunk size rows).flatten = rows :=
  chunksAux_flatten hs rows.length rows (Nat.le_refl _)

/-- The chunk lengths produced by `chunksAux`, computed on the row count
alone; lets the 2500-row scenario be evaluated without building the list. -/
def chunkLens (size : Nat) : Nat → Nat → List Nat
  | 0, _ => []
  | _ + 1, 0 => []
  | fuel + 1, n + 1 => min size (n + 1) :: chunkLens size fuel (n + 1 - size)

theorem chunksAux_map_length (size : Nat) :
    ∀ (fuel : Nat) (rows : List α),
      (chunksAux size fuel rows).map List.length = chunkLens size fuel rows.length := by
  intro fuel
  induction fuel with
  | zero => intro rows; rfl
  | succ fuel ih =>
    intro rows
    cases rows with
    | nil => rfl
    | cons r rs =>
      simp only [chunksAux, List.map_cons, List.length_cons, chunkLens]
      rw [ih ((r :: rs).drop size)]
      simp [List.length_take, List.length_drop]

theorem get_data_chunk_map_length (size : Nat) (rows : List α) :
    (get_data_chunk size rows).map List.length = chunkLens size rows.length rows.length :=
  chunksAux_map_length size rows.length rows

/-! ### The claims -/

/-- Claim C3: for every source row list and every positive batch size, the
chunks produced by `Reader.get_data_chunk` concatenate back to the rows
exactly once and in order (no overlap, no loss), every chunk is nonempty and
at most the requested size, every chunk except possibly the last has exactly
the requested size, and a 2500-row file with batch size 1000 yields 3
batches of sizes 1000, 1000, 500 in that order. -/
theorem reader_chunking {α : Type} (size : Nat) (rows : List α) (hs : 0 < size) :
    (get_data_chunk size rows).flatten = rows ∧
    (∀ c ∈ get_data_chunk size rows, c ≠ [] ∧ c.length ≤ size) ∧
    (∀ c ∈ (get_data_chunk size rows).dropLast, c.length = size) ∧
    (get_data_chunk 1000 (List.range 2500)).map List.length = [1000, 1000, 500] := by
  refine ⟨get_data_chunk_flatten hs rows, ?_, ?_, ?_⟩
  · exact chunksAux_mem hs rows.length rows (Nat.le_refl _)
  · exact chunksAux_dropLast hs rows.length rows (Nat.le_refl _)
  · rw [get_data_chunk_map_length, List.length_range]
    decide

/-- Witness for C3 at batch size 3 over a 7-row file. -/
theorem reader_chunking_witness :
    (get_data_chunk 3 (List.range 7)).flatten = List.range 7 ∧
    (∀ c ∈ get_data_chunk 3 (List.range 7), c ≠ [] ∧ c.length ≤ 3) ∧
    (∀ c ∈ (get_data_chunk 3 (List.range 7)).dropLast, c.length = 3) ∧
    (get_data_chunk 1000 (List.range 2500)).map List.length = [1000, 1000, 500] :=
  reader_chunking 3 (List.range 7) (by decide)

/-- Claim C1: with winnersOnly=true and yearFilter=1995, every record in the
table after a `write_data` call was either already there or has win = true
and year_award = 1995; no record failing either condition is inserted. -/
theorem filter_correctness (table chunk : List Record) (r : Record)
    (h : r ∈ (write_data insertIgnore table chunk (some 1995) true).table) :
    r ∈ table ∨ (r.win = true ∧ r.year_award = 1995) := by
  rw [write_data_insertIgnore_eq] at h
  rcases mem_of_insertRows h with h1 | h1
  · exact Or.inl h1
  · rcases List.mem_map.mp h1 with ⟨r0, hr0, hr⟩
    have hw := mem_filterChunk_winner_year (by norm_num) hr0
    refine Or.inr ⟨?_, ?_⟩
    · rw [← hr, fillna_win]; exact hw.1
    · rw [← hr, fillna_year_award]; exact hw.2

/-- Witness for C1: a winning 1995 record written into an empty table. -/
theorem filter_correctness_witness :
    fillna rec0 ∈ (write_data insertIgnore [] [rec0] (some 1995) true).table ∧
    (fillna rec0 ∈ ([] : List Record) ∨
      ((fillna rec0).win = true ∧ (fillna rec0).year_award = 1995)) :=
  ⟨by decide, filter_correctness [] [rec0] (fillna rec0) (by decide)⟩

/-- Claim C2, counterexample: when the bulk insert raises a
uniqueness-violation DatabaseError, `db_validator` re-raises it
(`raise`, main.py line 79), so the exception IS propagated to the caller -
contradicting "reported (logged) but not raised to the caller"; the
unguarded loop in `__main__` then stops, so processing does NOT continue
with the next batch: the run on two batches ends at the first one. -/
theorem uniqueness_error_is_raised :
    (write_data uniqFailInsert [] [rec0] none false).raised ≠ none ∧
    runBatches uniqFailInsert none false [[rec0], [rec1]] [] =
      ⟨[], some DBError.uniquenessViolation, [LogMsg.dbError]⟩ := by
  refine ⟨?_, rfl⟩
  intro hcontra
  simp [write_data, write_data_body, db_validator, uniqFailInsert,
    filterChunk_no_filters] at hcontra

/-- Claim C2 as amended: when the bulk insert fails with a DatabaseError
(uniqueness violation included), the batch's insert is abandoned with no
partial insert (the connection's transaction scope rolls back) and the
condition is logged, but the exception is RE-RAISED to the caller, so the
run aborts and no later batch is processed. -/
theorem uniqueness_error_aborts
    (insert : List Record → List Record → Except DBError (List Record))
    (table chunk : List Record) (y : Option Int) (w : Bool)
    (cs : List (List Record)) (e : DBError)
    (hne : filterChunk chunk y w ≠ [])
    (hins : insert table ((filterChunk chunk y w).map fillna) = Except.error e) :
    write_data insert table chunk y w = ⟨table, some e, [LogMsg.dbError]⟩ ∧
    runBatches insert y w (chunk :: cs) table =
      ⟨table, some e, [LogMsg.dbError]⟩ := by
  have h1 : write_data insert table chunk y w = ⟨table, some e, [LogMsg.dbError]⟩ := by
    unfold write_data write_data_body db_validator
    simp [hne, hins]
  refine ⟨h1, ?_⟩
  simp only [runBatches, h1]

/-- Witness for C2 (amended) on a failing insert over two batches. -/
theorem uniqueness_error_aborts_witness :
    filterChunk [rec0] none false ≠ [] ∧
    uniqFailInsert [] ((filterChunk [rec0] none false).map fillna) =
      Except.error DBError.uniquenessViolation ∧
    write_data uniqFailInsert [] [rec0] none false =
      ⟨[], some DBError.uniquenessViolation, [LogMsg.dbError]⟩ ∧
    runBatches uniqFailInsert none false [[rec0], [rec1]] [] =
      ⟨[], some DBError.uniquenessViolation, [LogMsg.dbError]⟩ := by
  refine ⟨by decide, rfl, ?_⟩
  exact uniqueness_error_aborts uniqFailInsert [] [rec0] none false [[rec1]]
    DBError.uniquenessViolation (by decide) rfl

/-- Claim C4: for every filter setting, every record surviving the filters
that has ANY missing (null) optional field is stored with that field equal
to 0 rather than a null marker, its stored form coincides with the stored
form of the record carrying an explicit 0 in that field, and when the table
already holds that explicit-0 row the write adds no further copy (duplicate
detection applies). -/
theorem null_normalization (table chunk : List Record) (y : Option Int)
    (w : Bool) (f : OptField) (r : Record)
    (hr : r ∈ filterChunk chunk y w)
    (hnull : getField f r = Cell.null)
    (hmem : fillna (setField f r (Cell.int 0)) ∈ table) :
    getField f (fillna r) = Cell.int 0 ∧
    fillna r = fillna (setField f r (Cell.int 0)) ∧
    fillna r ∈ (write_data insertIgnore table chunk y w).table ∧
    (write_data insertIgnore table chunk y w).table.count (fillna r) =
      table.count (fillna r) := by
  have hfill : fillna r = fillna (setField f r (Cell.int 0)) := by
    obtain ⟨yf, ya, ce, cat, nom, fl, wn⟩ := r
    cases f <;> (simp only [getField] at hnull; subst hnull; rfl)
  have hget : getField f (fillna r) = fillCell (getField f r) := by
    cases f <;> rfl
  have hin : fillna r ∈ table := hfill ▸ hmem
  refine ⟨?_, hfill, ?_, ?_⟩
  · rw [hget, hnull]; rfl
  · rw [write_data_insertIgnore_eq]
    exact mem_insertRows_of_mem (List.mem_map_of_mem fillna hr)
  · rw [write_data_insertIgnore_eq]
    exact count_insertRows hin _

/-- Witness for C4: rec1 (null film, a 1996 loser) survives the
yearFilter=1996 run; the table already holds the stored form of
rec1-with-an-explicit-0-film, so nothing more is inserted for it. -/
theorem null_normalization_witness :
    rec1 ∈ filterChunk [rec1] (some 1996) false ∧
    getField OptField.film rec1 = Cell.null ∧
    fillna (setField OptField.film rec1 (Cell.int 0)) ∈
      [fillna (setField OptField.film rec1 (Cell.int 0))] ∧
    (getField OptField.film (fillna rec1) = Cell.int 0 ∧
      fillna rec1 = fillna (setField OptField.film rec1 (Cell.int 0)) ∧
      fillna rec1 ∈ (write_data insertIgnore
        [fillna (setField OptField.film rec1 (Cell.int 0))] [rec1]
        (some 1996) false).table ∧
      (write_data insertIgnore
        [fillna (setField OptField.film rec1 (Cell.int 0))] [rec1]
        (some 1996) false).table.count (fillna rec1) =
        [fillna (setField OptField.film rec1 (Cell.int 0))].count (fillna rec1)) :=
  ⟨by decide, by decide, by decide,
    null_normalization [fillna (setField OptField.film rec1 (Cell.int 0))] [rec1]
      (some 1996) false OptField.film rec1 (by decide) (by decide) (by decide)⟩

/-- Claim C5: ingesting the same source file with the same filters a second
time, without a clear in between, leaves the destination table exactly as
after the first run - the second run inserts nothing. -/
theorem ingest_idempotent (t rows : List Record) (y : Option Int) (w : Bool) :
    ingest (ingest t (get_data_chunk 1000 rows) y w) (get_data_chunk 1000 rows) y w =
      ingest t (get_data_chunk 1000 rows) y w :=
  ingest_twice t (get_data_chunk 1000 rows) y w

/-- Claim C6: for a fixed source file and filters, ingesting with batch
size 1 and with batch size N (0 < N ≤ row count) produces the same final
destination-table contents. -/
theorem batch_size_invariance (t rows : List Record) (y : Option Int) (w : Bool)
    (N : Nat) (h1 : 0 < N) (_h2 : N ≤ rows.length) :
    ingest t (get_data_chunk 1 rows) y w = ingest t (get_data_chunk N rows) y w := by
  rw [ingest_eq, ingest_eq, get_data_chunk_flatten (by decide) rows,
    get_data_chunk_flatten h1 rows]

/-- Witness for C6: two records, batch size 2. -/
theorem batch_size_invariance_witness :
    0 < 2 ∧ 2 ≤ [rec0, rec1].length ∧
    ingest [] (get_data_chunk 1 [rec0, rec1]) none false =
      ingest [] (get_data_chunk 2 [rec0, rec1]) none false :=
  ⟨by decide, by decide,
    batch_size_invariance [] [rec0, rec1] none false 2 (by decide) (by decide)⟩

/-- Claim C7: a batch whose retained set after the filters is empty leads to
a log-only no-op - no insert is attempted (the result is the same for every
insert function), the table is unchanged, nothing is raised. -/
theorem empty_chunk_noop
    (insert : List Record → List Record → Except DBError (List Record))
    (table chunk : List Record) (y : Option Int) (w : Bool)
    (h : filterChunk chunk y w = []) :
    write_data insert table chunk y w =
      ⟨table, none, [LogMsg.chunkEmpty, LogMsg.chunkDone]⟩ := by
  unfold write_data write_data_body db_validator
  simp [h]

/-- Witness for C7: a non-winning record against the winners-only filter. -/
theorem empty_chunk_noop_witness :
    filterChunk [rec1] none true = [] ∧
    write_data insertIgnore [rec0] [rec1] none true =
      ⟨[rec0], none, [LogMsg.chunkEmpty, LogMsg.chunkDone]⟩ :=
  ⟨by decide, empty_chunk_noop insertIgnore [rec0] [rec1] none true (by decide)⟩

/-- Claim C8: if opening the destination store fails at startup (the `DB`
construction raises through the `DBConnection` descriptor), the run aborts
with that error before any batch is read or written: the store is returned
untouched and the only log line is the connection-error report. -/
theorem connection_error_fatal (e : DBError) (clearFlag : Bool)
    (fileRows : List Record) (year : Option Int) (winner : Bool) (store : Store) :
    main_run (Except.error e) clearFlag fileRows year winner store =
      (store, some e, [LogMsg.connError]) := rfl

/-- Claim C9, counterexample: the CLI does NOT map "--year 0" to an absent
filter: `int(args.year) if args.year else None` tests the truthiness of the
STRING "0", which is non-empty hence truthy, so the parsed value is the
present integer 0, not None. -/
theorem cli_year_zero_not_absent :
    cliYear (some "0") = some 0 ∧ cliYear (some "0") ≠ none := by
  refine ⟨rfl, ?_⟩
  intro h
  rw [show cliYear (some "0") = some 0 from rfl] at h
  cases h

/-- Claim C9 as amended: `write_data` with a year filter of 0 behaves
exactly as with no year filter (the filter is applied only when the value
is truthy), and the CLI maps "--year 0" to the present integer 0 - not to
None - which downstream behaves identically to an absent filter, so a full
run with "--year 0" equals a full run with no year argument. -/
theorem year_zero_behaves_as_absent (t c : List Record) (w : Bool)
    (connect : Except DBError Unit) (clearFlag : Bool) (rows : List Record)
    (s : Store) :
    cliYear (some "0") = some 0 ∧
    write_data insertIgnore t c (some 0) w = write_data insertIgnore t c none w ∧
    main_run connect clearFlag rows (cliYear (some "0")) w s =
      main_run connect clearFlag rows (cliYear none) w s := by
  refine ⟨rfl, write_data_zero insertIgnore t c w, ?_⟩
  show main_run connect clearFlag rows (some 0) w s =
    main_run connect clearFlag rows none w s
  cases connect with
  | error e => rfl
  | ok u => simp only [main_run, runBatches_zero]

/-- Claim C10: `clear_all` issues DELETE (not DROP): it removes every row,
the table and its schema survive, and the uniqueness constraint still
deduplicates any subsequent ingest (the resulting table has no duplicate
rows). -/
theorem clear_all_delete_not_drop (s : Store) (chunks : List (List Record))
    (y : Option Int) (w : Bool) :
    (clear_all s).1.rows = [] ∧
    (clear_all s).1.tableExists = s.tableExists ∧
    (ingest (clear_all s).1.rows chunks y w).Nodup := by
  refine ⟨rfl, rfl, ?_⟩
  rw [ingest_eq]
  exact insertRows_nodup List.nodup_nil _

end GGA
